import Mathlib

/-!
Verification of `train.py` from the structured self-attentive sentence
embedding classifier.  The tensor computation `regularize` is embedded over
the reals (tensors as `Fin`-indexed functions); the training/checkpointing
orchestration of `main` is embedded as explicit state-passing over `ℚ`.
-/

namespace SAN

/-! ### The regularization penalty (`regularize`, train.py lines 35-39)

`attn_mat` has shape B×r×T.  The torch operations are mirrored one by one:
`torch.bmm`, `permute(0, 2, 1)`, `torch.eye(r)` (broadcast over the batch
dimension by the subtraction), `torch.norm(·, p=2, dim=(1,2))` (Frobenius
norm over the last two axes, one value per batch item), `.mean()`. -/

/-- `torch.bmm`: batch matrix multiplication. -/
noncomputable def bmm {B r T s : ℕ} (X : Fin B → Fin r → Fin T → ℝ)
    (Y : Fin B → Fin T → Fin s → ℝ) : Fin B → Fin r → Fin s → ℝ :=
  fun b i j => ∑ t, X b i t * Y b t j

/-- `attn_mat.permute(0, 2, 1)`: swap the last two axes. -/
def permute021 {B r T : ℕ} (A : Fin B → Fin r → Fin T → ℝ) :
    Fin B → Fin T → Fin r → ℝ :=
  fun b t i => A b i t

/-- `torch.eye(r)`: the r×r identity matrix. -/
def eye (r : ℕ) : Fin r → Fin r → ℝ :=
  fun i j => if i = j then 1 else 0

/-- `torch.norm(M, p=2, dim=(1,2))`: per-batch-item Frobenius norm over the
last two axes. -/
noncomputable def normDim12 {B r s : ℕ} (M : Fin B → Fin r → Fin s → ℝ) :
    Fin B → ℝ :=
  fun b => Real.sqrt (∑ i, ∑ j, (M b i j) ^ 2)

/-- `.mean()` of a length-B vector. -/
noncomputable def batchMean {B : ℕ} (v : Fin B → ℝ) : ℝ :=
  (∑ b, v b) / B

/-- `regularize(attn_mat, r, device)` (train.py lines 35-39):
`sim_mat = torch.bmm(attn_mat, attn_mat.permute(0, 2, 1))`;
`p = torch.norm(sim_mat - identity, p=2, dim=(1, 2)).mean()`. -/
noncomputable def regularize {B T : ℕ} (r : ℕ)
    (A : Fin B → Fin r → Fin T → ℝ) : ℝ :=
  batchMean (normDim12 (fun b i j => bmm A (permute021 A) b i j - eye r i j))

/-- Written from the spec's words: per batch item form `sim = A·Aᵗ`, subtract
the r×r identity, take the Frobenius norm of that difference per item, then
average the B per-item norms. -/
noncomputable def penaltySpec {B T : ℕ} (r : ℕ)
    (A : Fin B → Fin r → Fin T → ℝ) : ℝ :=
  (∑ b, Real.sqrt (∑ i, ∑ j,
    ((∑ t, A b i t * A b j t) - if i = j then 1 else 0) ^ 2)) / B

/-- The alternative order of operations the spec rules out: average the
`sim − I` matrices across the batch first, then take one Frobenius norm. -/
noncomputable def meanThenNorm {B T : ℕ} (r : ℕ)
    (A : Fin B → Fin r → Fin T → ℝ) : ℝ :=
  Real.sqrt (∑ i, ∑ j,
    ((∑ b, (bmm A (permute021 A) b i j - eye r i j)) / B) ^ 2)

/-- A concrete 2×1×2 attention tensor: item 0 has row (0,0), item 1 has
row (1,1). -/
noncomputable def exA : Fin 2 → Fin 1 → Fin 2 → ℝ :=
  fun b _ _ => if b = 0 then 0 else 1

lemma regularize_eq {B T r : ℕ} (A : Fin B → Fin r → Fin T → ℝ) :
    regularize r A = (∑ b, Real.sqrt (∑ i, ∑ j,
      ((∑ t, A b i t * A b j t) - if i = j then 1 else 0) ^ 2)) / B := rfl

lemma regularize_exA : regularize 1 exA = 1 := by
  rw [regularize_eq]
  simp only [Fin.sum_univ_two, Fin.sum_univ_one, exA]
  norm_num

lemma meanThenNorm_exA : meanThenNorm 1 exA = 0 := by
  unfold meanThenNorm bmm permute021 eye exA
  simp only [Fin.sum_univ_two, Fin.sum_univ_one]
  norm_num

/-- C1: `regularize` forms `sim = A·Aᵗ` per batch item, subtracts the r×r
identity, takes the per-item Frobenius norm, and averages over the batch;
it is not the norm of the batch-averaged difference (witnessed by `exA`,
where the two orders disagree). -/
theorem regularize_per_item_norm_then_batch_mean :
    (∀ (B T r : ℕ) (A : Fin B → Fin r → Fin T → ℝ),
        regularize r A = penaltySpec r A) ∧
    regularize 1 exA ≠ meanThenNorm 1 exA := by
  refine ⟨fun B T r A => rfl, ?_⟩
  rw [regularize_exA, meanThenNorm_exA]
  norm_num

/-- C2: the penalty is nonnegative, and it vanishes exactly when every batch
item's attention rows are pairwise orthogonal and unit-norm, i.e.
`A·Aᵗ = I_r` for every item. -/
theorem regularize_nonneg_and_zero_iff_orthonormal :
    ∀ (B T r : ℕ) (A : Fin B → Fin r → Fin T → ℝ),
      0 ≤ regularize r A ∧
      (regularize r A = 0 ↔
        ∀ (b : Fin B) (i j : Fin r),
          (∑ t, A b i t * A b j t) = if i = j then 1 else 0) := by
  intro B T r A
  rw [regularize_eq]
  constructor
  · exact div_nonneg
      (Finset.sum_nonneg fun b _ => Real.sqrt_nonneg _) (Nat.cast_nonneg B)
  · constructor
    · intro h0 b i j
      have hBne : (B : ℝ) ≠ 0 := Nat.cast_ne_zero.mpr b.pos.ne'
      have hsum : (∑ b', Real.sqrt (∑ i', ∑ j',
          ((∑ t, A b' i' t * A b' j' t) - if i' = j' then 1 else 0) ^ 2)) = 0 := by
        rcases div_eq_zero_iff.mp h0 with h | h
        · exact h
        · exact absurd h hBne
      have hsqrt := (Finset.sum_eq_zero_iff_of_nonneg
        (fun b' _ => Real.sqrt_nonneg _)).mp hsum b (Finset.mem_univ b)
      have hS : (∑ i', ∑ j',
          ((∑ t, A b i' t * A b j' t) - if i' = j' then 1 else 0) ^ 2) = 0 :=
        le_antisymm (Real.sqrt_eq_zero'.mp hsqrt)
          (Finset.sum_nonneg fun i' _ => Finset.sum_nonneg fun j' _ => sq_nonneg _)
      have hrow := (Finset.sum_eq_zero_iff_of_nonneg
        (fun i' _ => Finset.sum_nonneg fun j' _ => sq_nonneg _)).mp hS i
        (Finset.mem_univ i)
      have hentry := (Finset.sum_eq_zero_iff_of_nonneg
        (fun j' _ => sq_nonneg _)).mp hrow j (Finset.mem_univ j)
      exact sub_eq_zero.mp (sq_eq_zero_iff.mp hentry)
    · intro hortho
      have hz : ∀ b : Fin B, Real.sqrt (∑ i, ∑ j,
          ((∑ t, A b i t * A b j t) - if i = j then 1 else 0) ^ 2) = 0 := by
        intro b
        have : (∑ i, ∑ j,
            ((∑ t, A b i t * A b j t) - if i = j then 1 else 0) ^ 2) = 0 :=
          Finset.sum_eq_zero fun i _ => Finset.sum_eq_zero fun j _ => by
            rw [hortho b i j, sub_self]
            simp
        rw [this, Real.sqrt_zero]
      rw [Finset.sum_eq_zero fun b _ => hz b, zero_div]

/-! ### Best-loss tracking and the checkpoint decision (train.py lines 73,
114-127)

`main` keeps a mutable scalar `best_val_loss = 1e+10` (line 73).  At each
epoch end it computes `is_best = val_loss < best_val_loss` (line 115); if
`is_best` it writes `summary.json` and `best.tar` (lines 123-125) and then
assigns `best_val_loss = val_loss` (line 127).  The epoch-end block is
embedded as a pure function on a loop state; the `saveOk` flag models
whether the persistence calls on lines 123-125 succeed — when they raise,
the exception propagates (there is no try/except), so execution never
reaches the assignment on line 127, and the returned `Bool` records that
the run crashed at that point. -/

/-- `best_val_loss = 1e+10` (train.py line 73). -/
def bestValLossInit : ℚ := 10 ^ 10

/-- The loop state the epoch-end block can touch: the tracker, the model and
optimizer states (abstract), and the ordered log of files written. -/
structure CkptState (μ ω : Type) where
  best_val_loss : ℚ
  model_state : μ
  opt_state : ω
  ioWrites : List String
deriving DecidableEq

/-- The epoch-end checkpoint block (train.py lines 114-127).  Returns the
state after the block together with `true` when the block raised (a failed
persistence call with no handler).  On failure the tracker assignment of
line 127 is never reached. -/
def checkpointDecision {μ ω : Type} (s : CkptState μ ω) (val_loss : ℚ)
    (saveOk : Bool) : CkptState μ ω × Bool :=
  if val_loss < s.best_val_loss then  -- is_best, line 115
    if saveOk then
      ({ s with ioWrites := s.ioWrites ++ ["summary.json", "best.tar"],
                best_val_loss := val_loss }, false)
    else
      (s, true)
  else
    (s, false)

/-- The tracker update in isolation (lines 115 and 127). -/
def bestUpdate (best val_loss : ℚ) : ℚ :=
  if val_loss < best then val_loss else best

/-- The tracker across a run, fed the epoch validation losses in order. -/
def bestTrackerCode (losses : List ℚ) : ℚ :=
  losses.foldl bestUpdate bestValLossInit

/-- Modelled from the spec: the best-loss tracker as §3 describes it,
"initialized to +infinity, updated only when a newly observed validation
loss is strictly lower" — `⊤` of `WithTop ℚ` plays +infinity. -/
def bestTrackerSpec (losses : List ℚ) : WithTop ℚ :=
  losses.foldl
    (fun (b : WithTop ℚ) (l : ℚ) =>
      if (l : WithTop ℚ) < b then (l : WithTop ℚ) else b) ⊤

/-- Initial loop state of a run (model and optimizer states abstracted to
`ℕ`; their values play no role in the checkpoint decision). -/
def initCkptState : CkptState ℕ ℕ :=
  ⟨bestValLossInit, 0, 0, []⟩

/-- A run over a list of epoch validation losses, all saves succeeding. -/
def runEpochEnds (s : CkptState ℕ ℕ) (losses : List ℚ) : CkptState ℕ ℕ :=
  losses.foldl (fun st l => (checkpointDecision st l true).1) s

/-- Number of checkpoints persisted over a run. -/
def numSaves (losses : List ℚ) : ℕ :=
  ((runEpochEnds initCkptState losses).ioWrites).count "best.tar"

/-- C3 counterexample: the tracker starts at the finite sentinel `1e+10`,
not `+infinity`.  On the loss sequence `[2·10^10]` the code leaves the
tracker at `10^10`, while a `+infinity`-initialized tracker would have
been updated to `2·10^10`. -/
theorem best_tracker_init_counterexample :
    bestTrackerCode [2 * 10 ^ 10] = 10 ^ 10 ∧
    bestTrackerSpec [2 * 10 ^ 10] = ((2 * 10 ^ 10 : ℚ) : WithTop ℚ) ∧
    (bestTrackerCode [2 * 10 ^ 10] : WithTop ℚ) ≠
      bestTrackerSpec [2 * 10 ^ 10] := by
  have h1 : bestTrackerCode [2 * 10 ^ 10] = 10 ^ 10 := by
    simp only [bestTrackerCode, bestUpdate, bestValLossInit,
      List.foldl_cons, List.foldl_nil]
    rw [if_neg (by norm_num)]
  have h2 : bestTrackerSpec [2 * 10 ^ 10] = ((2 * 10 ^ 10 : ℚ) : WithTop ℚ) := by
    simp only [bestTrackerSpec, List.foldl_cons, List.foldl_nil]
    rw [if_pos (WithTop.coe_lt_top _)]
  refine ⟨h1, h2, ?_⟩
  rw [h1, h2]
  intro h
  exact absurd (WithTop.coe_inj.mp h) (by norm_num)

/-- C3 amended: the tracker is initialized to the finite sentinel `1e+10`
(not `+infinity`), and it is updated exactly when a newly observed epoch
validation loss is strictly lower than its current value. -/
theorem best_tracker_sentinel_and_strict_update :
    bestValLossInit = 10 ^ 10 ∧
    ∀ best val_loss : ℚ,
      (bestUpdate best val_loss ≠ best → val_loss < best) ∧
      (val_loss < best → bestUpdate best val_loss = val_loss) ∧
      (¬ val_loss < best → bestUpdate best val_loss = best) := by
  refine ⟨rfl, fun best val_loss => ⟨?_, ?_, ?_⟩⟩
  · intro hne
    by_contra hlt
    exact hne (if_neg hlt)
  · intro hlt
    exact if_pos hlt
  · intro hlt
    exact if_neg hlt

/-- Witness for C3's amended theorem at concrete inputs. -/
theorem best_tracker_sentinel_and_strict_update_witness :
    (3 : ℚ) < 5 ∧ bestUpdate 5 3 = 3 ∧ bestUpdate 3 5 = 3 :=
  ⟨(best_tracker_sentinel_and_strict_update.2 5 3).1 (by norm_num [bestUpdate]),
   (best_tracker_sentinel_and_strict_update.2 5 3).2.1 (by norm_num),
   (best_tracker_sentinel_and_strict_update.2 3 5).2.2 (by norm_num)⟩

/-- C4: files are written at an epoch end if and only if that epoch's
validation loss is strictly below the current best; the sequence
`[0.9, 0.7, 0.5]` yields 3 saves and `[0.5, 0.5, 0.6]` yields 1. -/
theorem checkpoint_saves_iff_strict_improvement :
    (∀ (s : CkptState ℕ ℕ) (val_loss : ℚ),
        (checkpointDecision s val_loss true).1.ioWrites ≠ s.ioWrites ↔
          val_loss < s.best_val_loss) ∧
    numSaves [9/10, 7/10, 5/10] = 3 ∧
    numSaves [1/2, 1/2, 6/10] = 1 := by
  have hs : ¬ "summary.json" = "best.tar" := by decide
  refine ⟨fun s val_loss => ?_,
    by norm_num [numSaves, runEpochEnds, checkpointDecision, initCkptState,
      bestValLossInit, List.count_cons, hs],
    by norm_num [numSaves, runEpochEnds, checkpointDecision, initCkptState,
      bestValLossInit, List.count_cons, hs]⟩
  constructor
  · intro hne
    by_contra hlt
    exact hne (by simp [checkpointDecision, hlt])
  · intro hlt
    simp only [checkpointDecision, if_pos hlt, if_pos trivial]
    intro h
    have := congrArg List.length h
    simp at this

/-- C5: when the epoch's validation loss is not strictly lower than the
best, the epoch-end block performs no write and leaves the entire loop
state (tracker, model state, optimizer state) unchanged. -/
theorem no_improvement_no_io_no_state_change :
    ∀ (μ ω : Type) (s : CkptState μ ω) (val_loss : ℚ) (saveOk : Bool),
      ¬ val_loss < s.best_val_loss →
      checkpointDecision s val_loss saveOk = (s, false) := by
  intro μ ω s val_loss saveOk hnot
  simp [checkpointDecision, hnot]

/-- Witness for C5 at a concrete state and a tying loss. -/
theorem no_improvement_no_io_no_state_change_witness :
    ¬ (7 : ℚ) <
        (CkptState.mk 7 (0 : ℕ) (0 : ℕ)
          ["summary.json", "best.tar"]).best_val_loss ∧
    checkpointDecision
        (CkptState.mk 7 (0 : ℕ) (0 : ℕ) ["summary.json", "best.tar"]) 7
        true =
      (CkptState.mk 7 (0 : ℕ) (0 : ℕ) ["summary.json", "best.tar"],
        false) :=
  ⟨by norm_num,
   no_improvement_no_io_no_state_change ℕ ℕ
     (CkptState.mk 7 0 0 ["summary.json", "best.tar"]) 7 true (by norm_num)⟩

/-- C7 counterexample: an improving epoch (loss 1/2 below the initial
best) whose persistence call fails leaves the tracker at its old value
`10^10` — the assignment on line 127 is never executed — contradicting the
claim that the tracker is nevertheless updated to 1/2. -/
theorem save_failure_counterexample :
    (checkpointDecision initCkptState (1/2) false).1.best_val_loss =
        10 ^ 10 ∧
    (checkpointDecision initCkptState (1/2) false).2 = true ∧
    (10 ^ 10 : ℚ) ≠ 1/2 := by
  refine ⟨?_, ?_, by norm_num⟩ <;>
    norm_num [checkpointDecision, initCkptState, bestValLossInit]

/-- C7 amended: when persistence fails after an improving epoch, the
exception propagates (the block reports the crash) and the best-loss
tracker retains its previous value: the failed save forestalls the
tracker update rather than leaving it updated. -/
theorem save_failure_keeps_tracker :
    ∀ (μ ω : Type) (s : CkptState μ ω) (val_loss : ℚ),
      val_loss < s.best_val_loss →
      (checkpointDecision s val_loss false).1.best_val_loss =
          s.best_val_loss ∧
      (checkpointDecision s val_loss false).2 = true := by
  intro μ ω s val_loss hlt
  simp [checkpointDecision, hlt]

/-- Witness for C7's amended theorem at a concrete improving epoch. -/
theorem save_failure_keeps_tracker_witness :
    (checkpointDecision initCkptState 3 false).1.best_val_loss =
        initCkptState.best_val_loss ∧
    (checkpointDecision initCkptState 3 false).2 = true :=
  save_failure_keeps_tracker ℕ ℕ initCkptState 3
    (by norm_num [initCkptState, bestValLossInit])

/-! ### Non-finite losses (train.py lines 84-96)

The training step computes `mb_loss`, backpropagates it and accumulates
`tr_loss += mb_loss.item()` with no finiteness check anywhere in the loop.
Losses are embedded as `Flt`: either a finite rational or `nan`, with IEEE
behaviour for the two operations the loop uses — addition propagates `nan`,
and every comparison against `nan` is false. -/

/-- A loss value: finite, or non-finite (NaN/Inf collapse to `nan` since
only propagation and comparison matter here). -/
inductive Flt where
  | fin (q : ℚ)
  | nan
deriving DecidableEq

/-- IEEE-style addition: any `nan` operand poisons the sum. -/
def Flt.add : Flt → Flt → Flt
  | Flt.fin a, Flt.fin b => Flt.fin (a + b)
  | _, _ => Flt.nan

/-- IEEE-style `<`: comparisons involving `nan` are false. -/
def Flt.ltb : Flt → Flt → Bool
  | Flt.fin a, Flt.fin b => decide (a < b)
  | _, _ => false

/-- `tr_loss` accumulation over the batches of one epoch (line 95); the
loop body runs for every batch — there is no abort path. -/
def accumulateTrLoss (batchLosses : List Flt) : Flt :=
  batchLosses.foldl Flt.add (Flt.fin 0)

/-- `is_best = val_loss < best_val_loss` (line 115) on possibly
non-finite values. -/
def isBestFlt (val_loss best : Flt) : Bool :=
  Flt.ltb val_loss best

/-- One epoch's observable outcome: the accumulated training loss and the
checkpoint decision, both of which execute unconditionally. -/
def epochWithNan (batchLosses : List Flt) (val_loss : Flt) : Flt × Bool :=
  (accumulateTrLoss batchLosses, isBestFlt val_loss (Flt.fin bestValLossInit))

lemma foldl_add_nan (l : List Flt) : l.foldl Flt.add Flt.nan = Flt.nan := by
  induction l with
  | nil => rfl
  | cons x xs ih =>
    rw [List.foldl_cons]
    have hx : Flt.add Flt.nan x = Flt.nan := by cases x <;> rfl
    rw [hx, ih]

/-- C6 counterexample: an epoch whose second batch yields a non-finite
loss runs to completion — the NaN is accumulated into `tr_loss` (poisoning
it) and the checkpoint decision still executes (here the finite validation
loss 1/2 even registers as best) — the run never aborts at the bad batch. -/
theorem nan_loss_continues_counterexample :
    epochWithNan [Flt.fin 1, Flt.nan, Flt.fin 2] (Flt.fin (1/2)) =
      (Flt.nan, true) := by
  have h1 : accumulateTrLoss [Flt.fin 1, Flt.nan, Flt.fin 2] = Flt.nan := rfl
  have h2 : isBestFlt (Flt.fin (1/2)) (Flt.fin bestValLossInit) = true := by
    simp only [isBestFlt, Flt.ltb, bestValLossInit, decide_eq_true_eq]
    norm_num
  rw [epochWithNan, h1, h2]

/-- C6 amended: a non-finite batch loss is never detected; the epoch's
accumulated training loss becomes non-finite no matter where the bad batch
sits, and a non-finite validation loss at the checkpoint decision simply
compares false (so it never registers as best) — the run silently
continues instead of aborting. -/
theorem nan_loss_propagates_silently :
    ∀ (pre post : List Flt),
      accumulateTrLoss (pre ++ Flt.nan :: post) = Flt.nan ∧
      ∀ best : Flt, isBestFlt Flt.nan best = false := by
  intro pre post
  constructor
  · unfold accumulateTrLoss
    rw [List.foldl_append, List.foldl_cons]
    have hn : Flt.add (pre.foldl Flt.add (Flt.fin 0)) Flt.nan = Flt.nan := by
      cases pre.foldl Flt.add (Flt.fin 0) <;> rfl
    rw [hn, foldl_add_nan]
  · intro best
    cases best <;> rfl

/-! ### The periodic summary step (train.py lines 98-102)

Inside the step loop: when `(epoch * len(tr_dl) + step) % summary_step == 0`
the code runs `evaluate` on the validation loader with the loss metric only,
emits a train/validation loss pair, and calls `model.train()`.  `evaluate`
lives in `model.metric`, outside `src/`, so it is modelled from the spec. -/

/-- The model's mode flag toggled by `model.train()` / `model.eval()`. -/
inductive Mode where
  | train
  | eval
deriving DecidableEq

/-- Observable per-step state: the model's mode and the emitted
(train loss, validation loss) pairs. -/
structure StepState where
  mode : Mode
  lossPairs : List (ℚ × ℚ)
deriving DecidableEq

/-- Modelled from the spec: `evaluate` (from `model.metric`, which is not
under `src/`) per §4.5 — it places the model in inference mode for the
duration and returns the metric averaged over all batches of the dataset,
leaving re-entry into training mode to the caller. -/
def evaluateSpec (batchLosses : List ℚ) (_m : Mode) : ℚ × Mode :=
  (batchLosses.sum / (batchLosses.length : ℚ), Mode.eval)

/-- The periodic summary block (lines 98-102): on a summary step, run
`evaluate` for loss only, emit `(tr_loss / (step + 1), val_loss)`, then
`model.train()`. -/
def summaryCheck (epoch step lenTrDl summaryStep : ℕ) (trLossSum : ℚ)
    (valBatchLosses : List ℚ) (st : StepState) : StepState :=
  if (epoch * lenTrDl + step) % summaryStep = 0 then
    let ev := evaluateSpec valBatchLosses st.mode
    let st1 : StepState :=
      { mode := ev.2,
        lossPairs := st.lossPairs ++ [(trLossSum / ((step : ℚ) + 1), ev.1)] }
    { st1 with mode := Mode.train }  -- model.train(), line 102
  else
    st

/-- C8: whenever the global step `epoch * len(tr_dl) + step` is a multiple
of `summary_step`, a loss-only validation pass runs (placing the model in
inference mode), a train/validation loss pair is emitted, and the block
ends with the model back in training mode — before the next step runs. -/
theorem summary_step_emits_pair_and_restores_training_mode :
    ∀ (epoch step lenTrDl summaryStep : ℕ) (trLossSum : ℚ)
      (valBatchLosses : List ℚ) (st : StepState),
      (epoch * lenTrDl + step) % summaryStep = 0 →
      (summaryCheck epoch step lenTrDl summaryStep trLossSum valBatchLosses
          st).mode = Mode.train ∧
      (summaryCheck epoch step lenTrDl summaryStep trLossSum valBatchLosses
          st).lossPairs =
        st.lossPairs ++
          [(trLossSum / ((step : ℚ) + 1),
            valBatchLosses.sum / (valBatchLosses.length : ℚ))] ∧
      (evaluateSpec valBatchLosses st.mode).2 = Mode.eval := by
  intro epoch step lenTrDl summaryStep trLossSum valBatchLosses st h
  refine ⟨?_, ?_, rfl⟩ <;> simp [summaryCheck, evaluateSpec, h]

/-- Witness for C8 at global step 15 with `summary_step = 5`. -/
theorem summary_step_witness :
    (summaryCheck 1 5 10 5 2 [3] (StepState.mk Mode.train [])).mode =
        Mode.train ∧
    (summaryCheck 1 5 10 5 2 [3] (StepState.mk Mode.train [])).lossPairs =
      (StepState.mk Mode.train []).lossPairs ++
        [((2 : ℚ) / (((5 : ℕ) : ℚ) + 1),
          ([(3 : ℚ)] : List ℚ).sum / ((([(3 : ℚ)] : List ℚ).length : ℚ)))] ∧
    (evaluateSpec [3] (StepState.mk Mode.train []).mode).2 = Mode.eval :=
  summary_step_emits_pair_and_restores_training_mode 1 5 10 5 2 [3]
    (StepState.mk Mode.train []) (by norm_num)

/-! ### The end-of-epoch averaging block on an empty loader
(train.py lines 81-105)

The epoch body is `for step, mb in enumerate(tr_dl): ... else: tr_loss /=
(step + 1); ...`: Python's `for`/`else` runs the `else` clause whenever the
loop finishes without `break` (the body has none) — including after zero
iterations — and the clause reads the loop variable `step`, which is only
bound by the iterations themselves. -/

/-- The loop of one epoch: each iteration rebinds `step` (modelled as
`Option ℕ`, `none` = never bound) and accumulates `tr_loss`. -/
def epochTrainPhase (batchLosses : List ℚ) : Option ℕ × ℚ :=
  batchLosses.enum.foldl (fun acc sb => (some sb.1, acc.2 + sb.2)) (none, 0)

/-- The `for`/`else` of lines 81-105: the `else` clause always executes and
evaluates `tr_loss / (step + 1)`, raising `NameError` when `step` was never
bound. -/
def epochAverage (batchLosses : List ℚ) : Except String ℚ :=
  match epochTrainPhase batchLosses with
  | (none, _) => Except.error "NameError"
  | (some step, trLoss) => Except.ok (trLoss / ((step : ℚ) + 1))

/-- C9: with zero batches the averaging block still runs and crashes with
an unbound-variable error, while any nonempty epoch averages normally
(shown for a single batch of loss 4). -/
theorem empty_epoch_unbound_step_error :
    epochAverage [] = Except.error "NameError" ∧
    epochAverage [4] = Except.ok 4 := by
  constructor
  · rfl
  · simp only [epochAverage, epochTrainPhase, List.enum]
    norm_num

/-! ### What the training and validation losses measure
(train.py lines 86-96, 98-115)

Per batch the code computes `mb_loss = loss_fn(score, y_mb)` and then
`mb_loss.add_(reg)` before accumulating it into `tr_loss`; both validation
losses (the periodic one on line 99 and the epoch-end one on line 108) come
from `evaluate` with `loss_fn` alone, so no penalty term enters them. -/

/-- One batch's contribution to `tr_loss` (lines 87-88, 95): cross-entropy
plus the regularization penalty. -/
def mbLoss (ce reg : ℚ) : ℚ := ce + reg

/-- The per-epoch training loss (lines 95, 104): accumulate `mb_loss` over
the batches — each a (cross-entropy, penalty) pair — then divide by the
step count. -/
def epochTrainAvg (batches : List (ℚ × ℚ)) : ℚ :=
  (batches.foldl (fun acc b => acc + mbLoss b.1 b.2) 0) /
    (batches.length : ℚ)

/-- The validation loss (lines 99 and 108): `evaluate` applied with the
`loss_fn` metric only, i.e. the cross-entropy values of the batches. -/
def epochValLoss (batches : List (ℚ × ℚ)) : ℚ :=
  (evaluateSpec (batches.map Prod.fst) Mode.eval).1

lemma foldl_mbLoss (l : List (ℚ × ℚ)) (a : ℚ) :
    l.foldl (fun acc b => acc + mbLoss b.1 b.2) a =
      a + (l.map Prod.fst).sum + (l.map Prod.snd).sum := by
  induction l generalizing a with
  | nil => simp
  | cons x xs ih =>
    rw [List.foldl_cons, ih]
    simp [mbLoss]
    ring

/-- C10: over the same batches, the epoch training average exceeds a
validation-style (cross-entropy-only) average by exactly the mean
regularization penalty: the train and validation losses the loop compares
measure different quantities. -/
theorem train_loss_includes_penalty_val_loss_does_not :
    ∀ (batches : List (ℚ × ℚ)),
      epochTrainAvg batches =
        epochValLoss batches +
          (batches.map Prod.snd).sum / (batches.length : ℚ) := by
  intro batches
  unfold epochTrainAvg epochValLoss evaluateSpec
  rw [foldl_mbLoss]
  simp only [List.length_map]
  ring

end SAN
